import Mathlib

/-!
Verification development for the dlt runtime-starter-pack examples.

The repository composes a raw-data ingestion stage with derived-table
transformation stages.  The transformations themselves are declarative
relational-algebra expressions (join, group_by, aggregate) built with the
ibis expression library; this file gives them a list-based relational
semantics and proves the documented properties about them.

Parts of the behaviour live in the dlt framework rather than in this
repository (write-disposition semantics, schema gating on load, the
data-quality metrics store, the ingestion flattener).  Those are modelled
from the specification's contracts; each such definition carries a doc
comment saying so.
-/

/-! ## Raw tables of the GitHub example (github_transformations.py)

Rows carry exactly the columns the transformations read.  Timestamps are
modelled as natural numbers (seconds); the ibis `.date()` truncation
becomes division by 86400.  Nullable columns are `Option`.
-/

/-- A row of the raw `commits` table (the columns read by the transformations). -/
structure RawCommit where
  dlt_id : String
  sha : String
  author__login : Option String
  committer__login : Option String
  commit__author__name : String
  commit__author__email : String
  commit__author__date : Nat
  commit__committer__date : Nat
  commit__message : String
  commit__verification__verified : Bool
  commit__comment_count : Nat
  deriving DecidableEq

/-- A row of the child table `commits__parents`; `dlt_parent_id` references the
generated `_dlt_id` of a row of `commits`. -/
structure ParentRow where
  dlt_parent_id : String
  dlt_id : String
  sha : String
  deriving DecidableEq

/-- A row of the raw `contributors` table (the columns read by `users`). -/
structure Contributor where
  login : Option String
  id : Nat
  avatar_url : String
  type : String
  site_admin : Bool
  contributions : Nat
  deriving DecidableEq

/-- The raw GitHub dataset: the three ingested tables. -/
structure GithubDataset where
  commits : List RawCommit
  commits__parents : List ParentRow
  contributors : List Contributor
  deriving DecidableEq

/-! ## The shared parent-count subquery

All three transformations build
`parents.group_by(parents._dlt_parent_id).aggregate(parent_count=parents._dlt_id.count())`
and left-join it to `commits` on `commits._dlt_id == parent_counts._dlt_parent_id`.
-/

/-- Number of child rows whose `dlt_parent_id` equals `a` (`_dlt_id` is never
null, so ibis `count()` is the group size). -/
def childCount (ps : List ParentRow) (a : String) : Nat :=
  (ps.filter (fun p => p.dlt_parent_id = a)).length

/-- `parents.group_by(_dlt_parent_id).aggregate(parent_count=_dlt_id.count())`:
one row per distinct key, with the group size. -/
def parentCounts (ps : List ParentRow) : List (String × Nat) :=
  ((ps.map (fun p => p.dlt_parent_id)).dedup).map (fun k => (k, childCount ps k))

/-- Left join of the commits table with the aggregated `parent_counts` on
`commits._dlt_id == parent_counts._dlt_parent_id`, followed by a row
constructor `mk` (the subsequent `select`).  A left row with no match yields
one row with a null `parent_count`. -/
def enrichJoin {β : Type} (mk : RawCommit → Option Nat → β)
    (cs : List RawCommit) (pcs : List (String × Nat)) : List β :=
  cs.flatMap (fun c =>
    match pcs.filter (fun pc => c.dlt_id = pc.1) with
    | [] => [mk c none]
    | ms => ms.map (fun pc => mk c (some pc.2)))

/-! ## The `commits` transformation -/

/-- Output row of the `commits` transformation. -/
structure CommitOut where
  sha : String
  author_login : String
  committer_login : String
  author_name : String
  author_email : String
  authored_at : Nat
  committed_at : Nat
  message : String
  message_length : Nat
  is_verified : Bool
  comment_count : Nat
  parent_count : Nat
  is_merge_commit : Bool
  deriving DecidableEq

/-- The `select` of the `commits` transformation: coalesce the logins to
"unknown", coalesce the joined `parent_count` to 0 and derive
`is_merge_commit` as `parent_count > 1`. -/
def mkCommitOut (c : RawCommit) (pc : Option Nat) : CommitOut :=
  { sha := c.sha
    author_login := c.author__login.getD "unknown"
    committer_login := c.committer__login.getD "unknown"
    author_name := c.commit__author__name
    author_email := c.commit__author__email
    authored_at := c.commit__author__date
    committed_at := c.commit__committer__date
    message := c.commit__message
    message_length := c.commit__message.length
    is_verified := c.commit__verification__verified
    comment_count := c.commit__comment_count
    parent_count := pc.getD 0
    is_merge_commit := decide (1 < pc.getD 0) }

/-- The relation yielded by the `commits` transformation. -/
def commitsRel (d : GithubDataset) : List CommitOut :=
  enrichJoin mkCommitOut d.commits (parentCounts d.commits__parents)

/-- The `commits` transformation: takes the dataset handle and yields its
single output relation. -/
def commits (d : GithubDataset) : List (List CommitOut) :=
  [commitsRel d]

/-! ## The `daily_activity` transformation -/

/-- Row of the intermediate `enriched` select inside `daily_activity`. -/
structure DailyEnriched where
  sha : String
  author__login : Option String
  commit__author__date : Nat
  parent_count : Nat
  deriving DecidableEq

/-- The `select` of `daily_activity`'s join. -/
def mkDailyEnriched (c : RawCommit) (pc : Option Nat) : DailyEnriched :=
  { sha := c.sha
    author__login := c.author__login
    commit__author__date := c.commit__author__date
    parent_count := pc.getD 0 }

/-- Calendar-date truncation of a timestamp (models ibis `.date()`). -/
def dateOf (ts : Nat) : Nat := ts / 86400

/-- Output row of the `daily_activity` transformation. -/
structure DailyOut where
  activity_date : Nat
  total_commits : Nat
  merge_commits : Nat
  regular_commits : Nat
  unique_authors : Nat
  deriving DecidableEq

/-- The relation yielded by `daily_activity`: group the enriched commits by
`activity_date` and aggregate counts; `nunique` counts distinct non-null
logins. -/
def dailyRel (d : GithubDataset) : List DailyOut :=
  let e := enrichJoin mkDailyEnriched d.commits (parentCounts d.commits__parents)
  ((e.map (fun r => dateOf r.commit__author__date)).dedup).map (fun dt =>
    let g := e.filter (fun r => dateOf r.commit__author__date = dt)
    { activity_date := dt
      total_commits := g.length
      merge_commits := (g.filter (fun r => 1 < r.parent_count)).length
      regular_commits := (g.filter (fun r => r.parent_count ≤ 1)).length
      unique_authors := ((g.filterMap (fun r => r.author__login)).dedup).length })

/-- The `daily_activity` transformation: yields its single output relation. -/
def daily_activity (d : GithubDataset) : List (List DailyOut) :=
  [dailyRel d]

/-! ## The `users` transformation -/

/-- Row of the intermediate `commits_enriched` select inside `users`. -/
structure CommitsEnrichedRow where
  author__login : Option String
  sha : String
  commit__author__date : Nat
  commit__message : String
  commit__verification__verified : Bool
  parent_count : Nat
  deriving DecidableEq

/-- The `select` of `users`' commits/parent_counts join. -/
def mkCommitsEnriched (c : RawCommit) (pc : Option Nat) : CommitsEnrichedRow :=
  { author__login := c.author__login
    sha := c.sha
    commit__author__date := c.commit__author__date
    commit__message := c.commit__message
    commit__verification__verified := c.commit__verification__verified
    parent_count := pc.getD 0 }

/-- One row of the `commit_stats` aggregate, keyed by a non-null author login. -/
structure CommitStat where
  author__login : String
  total_commits : Nat
  merge_commits : Nat
  verified_commits : Nat
  first_commit : Option Nat
  most_recent_commit : Option Nat
  avg_message_length : ℚ
  deriving DecidableEq

/-- `commits_enriched.filter(author__login.notnull()).group_by(author__login).aggregate(...)`. -/
def commitStats (e : List CommitsEnrichedRow) : List CommitStat :=
  let f := e.filter (fun r => r.author__login.isSome)
  ((f.filterMap (fun r => r.author__login)).dedup).map (fun login =>
    let g := f.filter (fun r => r.author__login = some login)
    { author__login := login
      total_commits := g.length
      merge_commits := (g.filter (fun r => 1 < r.parent_count)).length
      verified_commits := (g.filter (fun r => r.commit__verification__verified)).length
      first_commit := (g.map (fun r => r.commit__author__date)).min?
      most_recent_commit := (g.map (fun r => r.commit__author__date)).max?
      avg_message_length :=
        ((g.map (fun r => (r.commit__message.length : ℚ))).sum) / (g.length : ℚ) })

/-- Row of the `from_contributors` select inside `users`. -/
structure FromContributor where
  login : Option String
  user_id : Nat
  avatar_url : String
  user_type : String
  site_admin : Bool
  api_contributions : Nat
  deriving DecidableEq

/-- The `from_contributors` select: renamed contributor columns. -/
def fromContributors (cs : List Contributor) : List FromContributor :=
  cs.map (fun c =>
    { login := c.login
      user_id := c.id
      avatar_url := c.avatar_url
      user_type := c.type
      site_admin := c.site_admin
      api_contributions := c.contributions })

/-- Output row of the `users` transformation. -/
structure UserRow where
  login : Option String
  user_id : Nat
  avatar_url : String
  user_type : String
  site_admin : Bool
  api_contributions : Nat
  total_commits : Nat
  merge_commits : Nat
  verified_commits : Nat
  first_commit : Option Nat
  most_recent_commit : Option Nat
  avg_message_length : Option ℚ
  deriving DecidableEq

/-- The final `select` of `users`: stat columns are null when the left join
found no matching `commit_stats` row, and the counters are coalesced to 0. -/
def mkUserRow (fc : FromContributor) (st : Option CommitStat) : UserRow :=
  { login := fc.login
    user_id := fc.user_id
    avatar_url := fc.avatar_url
    user_type := fc.user_type
    site_admin := fc.site_admin
    api_contributions := fc.api_contributions
    total_commits := (st.map (fun s => s.total_commits)).getD 0
    merge_commits := (st.map (fun s => s.merge_commits)).getD 0
    verified_commits := (st.map (fun s => s.verified_commits)).getD 0
    first_commit := st.bind (fun s => s.first_commit)
    most_recent_commit := st.bind (fun s => s.most_recent_commit)
    avg_message_length := st.map (fun s => s.avg_message_length) }

/-- The relation yielded by the `users` transformation: contributors
left-joined with `commit_stats` on `login == author__login`. -/
def usersRel (d : GithubDataset) : List UserRow :=
  let e := enrichJoin mkCommitsEnriched d.commits (parentCounts d.commits__parents)
  let stats := commitStats e
  (fromContributors d.contributors).flatMap (fun fc =>
    match stats.filter (fun s => fc.login = some s.author__login) with
    | [] => [mkUserRow fc none]
    | ms => ms.map (fun s => mkUserRow fc (some s)))

/-- The `users` transformation: yields its single output relation. -/
def users (d : GithubDataset) : List (List UserRow) :=
  [usersRel d]

/-! ## The jaffle-shop transformations (jaffle_transformations.py) -/

/-- A row of the raw `orders` table (columns read by the transformations). -/
structure OrderRow where
  id : Nat
  customer_id : Nat
  ordered_at : Nat
  deriving DecidableEq

/-- A row of the raw `payments` table. -/
structure PaymentRow where
  order_id : Nat
  amount : ℚ
  deriving DecidableEq

/-- A row of the raw `customers` table (never read by the transformations). -/
structure JaffleCustomerRow where
  id : Nat
  deriving DecidableEq

/-- A row of the raw `products` table (never read by the transformations). -/
structure JaffleProductRow where
  sku : String
  deriving DecidableEq

/-- The raw jaffle-shop dataset: REST resources plus the payments file. -/
structure JaffleDataset where
  customers : List JaffleCustomerRow
  products : List JaffleProductRow
  orders : List OrderRow
  payments : List PaymentRow
  deriving DecidableEq

/-- Output row of the `customer_orders` transformation. -/
structure CustomerOrdersOut where
  customer_id : Nat
  first_order : Option Nat
  most_recent_order : Option Nat
  number_of_orders : Nat
  deriving DecidableEq

/-- The relation yielded by `customer_orders`:
`orders.group_by("customer_id").aggregate(...)`. -/
def customerOrdersRel (d : JaffleDataset) : List CustomerOrdersOut :=
  ((d.orders.map (fun o => o.customer_id)).dedup).map (fun cid =>
    let g := d.orders.filter (fun o => o.customer_id = cid)
    { customer_id := cid
      first_order := (g.map (fun o => o.ordered_at)).min?
      most_recent_order := (g.map (fun o => o.ordered_at)).max?
      number_of_orders := g.length })

/-- The `customer_orders` transformation: yields its single output relation. -/
def customer_orders (d : JaffleDataset) : List (List CustomerOrdersOut) :=
  [customerOrdersRel d]

/-- Output row of the `customer_payments` transformation; the group key is
null for payments whose `order_id` matched no order. -/
structure CustomerPaymentsOut where
  customer_id : Option Nat
  total_amount : ℚ
  deriving DecidableEq

/-- The relation yielded by `customer_payments`:
`payments.left_join(orders, payments.order_id == orders.id)
 .group_by(orders.customer_id).aggregate(total_amount=sum(amount))`. -/
def customerPaymentsRel (d : JaffleDataset) : List CustomerPaymentsOut :=
  let joined := d.payments.flatMap (fun p =>
    match d.orders.filter (fun o => p.order_id = o.id) with
    | [] => [(p, (none : Option Nat))]
    | ms => ms.map (fun o => (p, some o.customer_id)))
  ((joined.map (fun pr => pr.2)).dedup).map (fun cid =>
    let g := joined.filter (fun pr => pr.2 = cid)
    { customer_id := cid
      total_amount := (g.map (fun pr => pr.1.amount)).sum })

/-- The `customer_payments` transformation: yields its single output relation. -/
def customer_payments (d : JaffleDataset) : List (List CustomerPaymentsOut) :=
  [customerPaymentsRel d]

/-! ## Write dispositions (dlt load engine)

The repository declares write dispositions on its resources; the semantics
of applying them at the destination lives in the dlt framework. -/

/-- A write policy, as declared on resources/transformations. -/
inductive WritePolicy
  | replace
  | append
  | merge
  deriving DecidableEq

/-- The write disposition declared on the `normalized_repository` resource in
github_transformations.py (`@dlt.resource(write_disposition="replace", ...)`). -/
def normalized_repository_write_disposition : WritePolicy :=
  WritePolicy.replace

/-- Modelled from the spec: the destination write step of the load engine
(not in src/).  "Write policy: replace/append/merge semantics for repeated
table writes": replace discards the previous table contents, append keeps
them, merge upserts by key. -/
def applyWrite {α : Type} (p : WritePolicy) (key : α → Nat)
    (existing incoming : List α) : List α :=
  match p with
  | WritePolicy.replace => incoming
  | WritePolicy.append => existing ++ incoming
  | WritePolicy.merge =>
      existing.filter (fun r => !(incoming.map key).contains (key r)) ++ incoming

/-! ## Schema gating on append loads (dlt transformation stage)

Modelled from the spec: "Before committing, the stage must compute the
resulting schema and fail the entire transformation run early if it is
incompatible with the existing destination schema"; append/merge "require
compatible or additive schema changes, else the run must fail before
partial writes occur". -/

/-- Column types of the modelled destination. -/
inductive ColType
  | text
  | bigint
  | double
  | boolean
  deriving DecidableEq

/-- A table schema: named, typed columns. -/
abbrev TableSchema := List (String × ColType)

/-- Modelled from the spec: schema compatibility for append loads — the new
schema may only add columns; every existing column must keep its type. -/
def schemaCompatible (old new : TableSchema) : Bool :=
  old.all (fun col => decide (col ∈ new))

/-- A destination table: its committed schema and rows. -/
structure DestTable where
  schema : TableSchema
  rows : List (List String)
  deriving DecidableEq

/-- The structured failure reported to the caller. -/
inductive LoadError
  | schemaIncompatible
  deriving DecidableEq

/-- Modelled from the spec: a transformation load under the "append" policy
(the load engine is not in src/).  The resulting schema is computed and
checked before any row is written; an incompatible schema fails the whole
run. -/
def appendLoad (dest : DestTable) (newSchema : TableSchema)
    (newRows : List (List String)) : Except LoadError DestTable :=
  if schemaCompatible dest.schema newSchema then
    Except.ok { schema := newSchema, rows := dest.rows ++ newRows }
  else
    Except.error LoadError.schemaIncompatible

/-- The destination table observable after an append load attempt: the new
state on success, the untouched previous state on failure. -/
def appendLoadFinal (dest : DestTable) (newSchema : TableSchema)
    (newRows : List (List String)) : DestTable :=
  match appendLoad dest newSchema newRows with
  | Except.ok d => d
  | Except.error _ => dest

/-! ## The data-quality metrics store (metrics_notebook.py)

The notebook declares metrics with `dq.with_metrics(...)` and runs
`pipeline.run(dq.data_quality_metrics(pipeline.dataset()))` after each load;
the store itself lives in the dlthub.data_quality package. -/

/-- A row of the historical metric results table. -/
structure MetricRow where
  load_id : Nat
  metric_name : String
  metric_value : Int
  deriving DecidableEq

/-- Modelled from the spec: computing the declared metrics after one load
and appending them "as new rows to a historical results table keyed by load
id and timestamp — never overwritten". -/
def recordMetricsLoad (declared : List String) (compute : String → Nat → Int)
    (lid : Nat) (tbl : List MetricRow) : List MetricRow :=
  tbl ++ declared.map (fun m => ⟨lid, m, compute m lid⟩)

/-- Modelled from the spec: the results table after `n` completed loads
(the notebook's `for i in range(4): pipeline.run(...)` loop), starting from
an empty table, with load ids 0, 1, .... -/
def runLoads (declared : List String) (compute : String → Nat → Int) :
    Nat → List MetricRow
  | 0 => []
  | n + 1 => recordMetricsLoad declared compute n (runLoads declared compute n)

/-! ## The ingestion flattener (dlt normalization engine)

Modelled from the spec: the ingestion engine turns records with
"nested list-valued fields flattened into child tables linked by generated
parent/child id columns" (the engine is not in src/). -/

/-- A raw record before normalization: a payload plus a nested list field. -/
structure NestedCommitRecord where
  sha : String
  parents : List String
  deriving DecidableEq

/-- A row of the ingested parent table, with its generated surrogate id. -/
structure IngParentRow where
  dlt_id : Nat
  sha : String
  deriving DecidableEq

/-- A row of the ingested child table; `dlt_parent_id` carries the generated
id of the record the nested value came from. -/
structure IngChildRow where
  dlt_parent_id : Nat
  value : String
  deriving DecidableEq

/-- Modelled from the spec: flattening a record list into a parent table and
a child table, generating distinct surrogate ids from `i` upward. -/
def flattenFrom (i : Nat) :
    List NestedCommitRecord → List IngParentRow × List IngChildRow
  | [] => ([], [])
  | r :: rest =>
      let tail := flattenFrom (i + 1) rest
      (⟨i, r.sha⟩ :: tail.1, r.parents.map (fun v => ⟨i, v⟩) ++ tail.2)

/-- Modelled from the spec: the ingestion stage's output tables for a list
of raw records. -/
def ingestFlatten (input : List NestedCommitRecord) :
    List IngParentRow × List IngChildRow :=
  flattenFrom 0 input

/-! ## The composed two-stage run (the `__main__` blocks)

Both example scripts run the ingestion pipeline to completion, then pass
`ingest_pipe.dataset()` into the transformation source and run the
transformation pipeline.  Commit semantics are modelled from the spec: "a
run either completes and commits, or aborts and leaves no partial commit". -/

/-- Events observable during a composed run. -/
inductive RunEvent
  | ingestStart
  | ingestCommit
  | transformRead
  | transformCommit
  | runAborted
  deriving DecidableEq

/-- The three relations of the `github_analytics` source. -/
structure AnalyticsOut where
  users_rel : List UserRow
  commits_rel : List CommitOut
  daily_rel : List DailyOut
  deriving DecidableEq

/-- The `github_analytics` source: the transformed analytics tables derived
from the raw dataset. -/
def github_analytics (d : GithubDataset) : AnalyticsOut :=
  ⟨usersRel d, commitsRel d, dailyRel d⟩

/-- The composed two-stage run of github_transformations.py's `__main__`:
ingestion runs first and either aborts (source-access failure, modelled as
`none`) or commits its dataset; only then does the transformation stage
read the committed dataset and commit its own output. -/
def composedRun (ingested : Option GithubDataset) :
    List RunEvent × Option AnalyticsOut :=
  match ingested with
  | none => ([RunEvent.ingestStart, RunEvent.runAborted], none)
  | some ds =>
      ([RunEvent.ingestStart, RunEvent.ingestCommit,
        RunEvent.transformRead, RunEvent.transformCommit],
       some (github_analytics ds))

/-! ## Concrete example data (for witness evaluations) -/

/-- A concrete raw commit row. -/
def exCommit (a : String) (login : Option String) (dt : Nat) : RawCommit :=
  { dlt_id := a
    sha := a
    author__login := login
    committer__login := login
    commit__author__name := "n"
    commit__author__email := "e"
    commit__author__date := dt
    commit__committer__date := dt
    commit__message := "msg"
    commit__verification__verified := true
    commit__comment_count := 0 }

/-- A concrete child row. -/
def exParent (pid cid : String) : ParentRow :=
  { dlt_parent_id := pid, dlt_id := cid, sha := cid }

/-- A concrete GitHub dataset: commits "a", "b", "c" with 0, 1 and 2 child
rows respectively. -/
def gEx : GithubDataset :=
  { commits := [exCommit "a" (some "u") 0, exCommit "b" (some "u") 0,
                exCommit "c" none 86400]
    commits__parents := [exParent "b" "p1", exParent "c" "p2", exParent "c" "p3"]
    contributors := [{ login := some "u", id := 1, avatar_url := "av",
                       type := "User", site_admin := false, contributions := 5 }] }

/-- A concrete orders table. -/
def exOrders : List OrderRow := [{ id := 1, customer_id := 10, ordered_at := 5 }]

/-- A concrete payments table. -/
def exPayments : List PaymentRow := [{ order_id := 1, amount := (3 : ℚ) }]

/-- A jaffle dataset sharing `exOrders`/`exPayments`. -/
def jEx1 : JaffleDataset :=
  { customers := [{ id := 7 }], products := [], orders := exOrders,
    payments := exPayments }

/-- A second jaffle dataset with the same orders and payments but different
contents in the tables the transformations never read. -/
def jEx2 : JaffleDataset :=
  { customers := [], products := [{ sku := "s" }], orders := exOrders,
    payments := exPayments }

/-! ## Helper lemmas -/

/-- Filtering for a value that does not occur yields nothing. -/
lemma filter_eq_self_nil {α : Type} [DecidableEq α] (l : List α) (a : α)
    (h : a ∉ l) : l.filter (fun x => a = x) = [] := by
  rw [List.filter_eq_nil_iff]
  intro x hx hax
  exact h ((of_decide_eq_true hax) ▸ hx)

/-- Filtering a nodup key list mapped through a pair constructor for one key
keeps exactly that key's pair (if present). -/
lemma filter_map_pair (g : String → Nat) (a : String) :
    ∀ (ks : List String), ks.Nodup →
      ((ks.map (fun k => (k, g k))).filter (fun pc => a = pc.1)) =
        if a ∈ ks then [(a, g a)] else [] := by
  intro ks
  induction ks with
  | nil => simp
  | cons b t ih =>
      intro h
      rcases List.nodup_cons.mp h with ⟨hb, ht⟩
      by_cases hab : a = b
      · subst hab
        have htail : ((t.map (fun k => (k, g k))).filter (fun pc => a = pc.1)) = [] := by
          rw [ih ht]
          simp [hb]
        simp [List.filter_cons, htail]
      · simp [List.filter_cons, hab, ih ht]

/-- A key with no child rows has child count zero. -/
lemma childCount_eq_zero (ps : List ParentRow) (a : String)
    (h : a ∉ ps.map (fun p => p.dlt_parent_id)) : childCount ps a = 0 := by
  unfold childCount
  rw [List.length_eq_zero, List.filter_eq_nil_iff]
  intro p hp hpa
  exact h (List.mem_map.mpr ⟨p, hp, of_decide_eq_true hpa⟩)

/-- Filtering the aggregated `parent_counts` for one commit id yields exactly
the pair for that id when some child references it, and nothing otherwise. -/
lemma filter_parentCounts (ps : List ParentRow) (a : String) :
    ((parentCounts ps).filter (fun pc => a = pc.1)) =
      if a ∈ ps.map (fun p => p.dlt_parent_id)
      then [(a, childCount ps a)] else [] := by
  unfold parentCounts
  rw [filter_map_pair (childCount ps) a _ (List.nodup_dedup _)]
  by_cases hmem : a ∈ ps.map (fun p => p.dlt_parent_id)
  · simp [hmem, List.mem_dedup]
  · simp [hmem, List.mem_dedup]

/-- The left join against the aggregated `parent_counts` is a per-row map:
the grouped join key is unique on the right side, so each commit row yields
exactly one output row. -/
lemma enrichJoin_parentCounts {β : Type} (mk : RawCommit → Option Nat → β)
    (cs : List RawCommit) (ps : List ParentRow) :
    enrichJoin mk cs (parentCounts ps) =
      cs.map (fun c =>
        mk c (if c.dlt_id ∈ ps.map (fun p => p.dlt_parent_id)
              then some (childCount ps c.dlt_id) else none)) := by
  induction cs with
  | nil => rfl
  | cons c t ih =>
      unfold enrichJoin at ih ⊢
      rw [List.flatMap_cons, filter_parentCounts ps c.dlt_id, ih, List.map_cons]
      by_cases hmem : c.dlt_id ∈ ps.map (fun p => p.dlt_parent_id)
      · rw [if_pos hmem, if_pos hmem]
        rfl
      · rw [if_neg hmem, if_neg hmem]
        rfl

/-- The `commits` transformation output, rewritten as one row per raw commit
with the coalesced child count. -/
lemma commitsRel_eq_map (d : GithubDataset) :
    commitsRel d =
      d.commits.map (fun c =>
        mkCommitOut c (some (childCount d.commits__parents c.dlt_id))) := by
  rw [commitsRel, enrichJoin_parentCounts]
  apply List.map_congr_left
  intro c _
  by_cases hmem : c.dlt_id ∈ d.commits__parents.map (fun p => p.dlt_parent_id)
  · rw [if_pos hmem]
  · rw [if_neg hmem, childCount_eq_zero _ _ hmem]
    rfl

/-- Splitting a list of enriched commit rows by `parent_count > 1` versus
`parent_count ≤ 1` is a partition. -/
lemma daily_filter_partition (g : List DailyEnriched) :
    (g.filter (fun r => 1 < r.parent_count)).length
      + (g.filter (fun r => r.parent_count ≤ 1)).length = g.length := by
  induction g with
  | nil => rfl
  | cons r t ih =>
      by_cases h : 1 < r.parent_count
      · have h2 : ¬ r.parent_count ≤ 1 := by omega
        simp [List.filter_cons, h, h2]
        omega
      · have h2 : r.parent_count ≤ 1 := by omega
        simp [List.filter_cons, h, h2]
        omega

/-- Filtering the metric rows appended by one load for a declared metric
name keeps exactly that metric's row. -/
lemma filter_metric_map (compute : String → Nat → Int) (k : Nat) (m : String) :
    ∀ (declared : List String), declared.Nodup → m ∈ declared →
      ((declared.map (fun mm => (⟨k, mm, compute mm k⟩ : MetricRow))).filter
          (fun r => r.metric_name = m)) = [⟨k, m, compute m k⟩] := by
  intro declared
  induction declared with
  | nil => intro _ hm; cases hm
  | cons b t ih =>
      intro hnd hm
      rcases List.nodup_cons.mp hnd with ⟨hb, ht⟩
      by_cases hbm : b = m
      · subst hbm
        have htail : ((t.map (fun mm => (⟨k, mm, compute mm k⟩ : MetricRow))).filter
            (fun r => r.metric_name = b)) = [] := by
          rw [List.filter_eq_nil_iff]
          intro r hr
          rcases List.mem_map.mp hr with ⟨mm, hmm, rfl⟩
          simp only [decide_eq_true_eq]
          intro hc
          exact hb (hc ▸ hmm)
        simp [List.filter_cons, htail]
      · have hm' : m ∈ t := by
          rcases List.mem_cons.mp hm with h | h
          · exact absurd h.symm hbm
          · exact h
        have hhead : ((⟨k, b, compute b k⟩ : MetricRow).metric_name = m) = False := by
          simp [hbm]
        simp [List.filter_cons, hbm, ih ht hm']

/-- Every parent row generated from offset `i` has id at least `i`. -/
lemma flattenFrom_parent_id_ge (l : List NestedCommitRecord) :
    ∀ i, ∀ p ∈ (flattenFrom i l).1, i ≤ p.dlt_id := by
  induction l with
  | nil =>
      intro i p hp
      simp [flattenFrom] at hp
  | cons r rest ih =>
      intro i p hp
      simp only [flattenFrom, List.mem_cons] at hp
      rcases hp with h | h
      · subst h; exact le_refl i
      · exact Nat.le_of_succ_le (ih (i + 1) p h)

/-- Every child row generated from offset `i` references an id at least `i`. -/
lemma flattenFrom_child_pid_ge (l : List NestedCommitRecord) :
    ∀ i, ∀ ch ∈ (flattenFrom i l).2, i ≤ ch.dlt_parent_id := by
  induction l with
  | nil =>
      intro i ch hch
      simp [flattenFrom] at hch
  | cons r rest ih =>
      intro i ch hch
      simp only [flattenFrom, List.mem_append] at hch
      rcases hch with h | h
      · rcases List.mem_map.mp h with ⟨v, _, rfl⟩
        exact le_refl i
      · exact Nat.le_of_succ_le (ih (i + 1) ch h)

/-- Each child row generated by the flattener references exactly one parent
row of the generated parent table. -/
lemma flattenFrom_ref_integrity (l : List NestedCommitRecord) :
    ∀ i, ∀ ch ∈ (flattenFrom i l).2,
      (((flattenFrom i l).1).filter
          (fun p => p.dlt_id = ch.dlt_parent_id)).length = 1 := by
  induction l with
  | nil =>
      intro i ch hch
      simp [flattenFrom] at hch
  | cons r rest ih =>
      intro i ch hch
      simp only [flattenFrom, List.mem_append] at hch ⊢
      rcases hch with h | h
      · rcases List.mem_map.mp h with ⟨v, _, rfl⟩
        have htail : (((flattenFrom (i + 1) rest).1).filter
            (fun p => p.dlt_id = (⟨i, v⟩ : IngChildRow).dlt_parent_id)) = [] := by
          rw [List.filter_eq_nil_iff]
          intro p hp
          have := flattenFrom_parent_id_ge rest (i + 1) p hp
          simp only [decide_eq_true_eq]
          omega
        simp [List.filter_cons, htail]
      · have hge := flattenFrom_child_pid_ge rest (i + 1) ch h
        have hne : ¬ ((⟨i, r.sha⟩ : IngParentRow).dlt_id = ch.dlt_parent_id) := by
          intro hc
          have hci : i = ch.dlt_parent_id := hc
          omega
        simp only [List.filter_cons, hne, decide_eq_true_eq, if_neg,
          decide_eq_false hne, Bool.false_eq_true, if_false]
        exact ih (i + 1) ch h

/-! ## Claim theorems -/

/-- C1: For every input dataset in which three raw commit rows have 0, 1 and
2 child rows respectively in the `commits__parents` table (linked by
`_dlt_parent_id` = the commit's `_dlt_id`), the relation yielded by the
`commits` transformation assigns those commits `parent_count` = 0, 1 and 2
and `is_merge_commit` = false, false and true respectively. -/
theorem commits_parent_count_classification (d : GithubDataset)
    (c0 c1 c2 : RawCommit) (hc : d.commits = [c0, c1, c2])
    (h0 : childCount d.commits__parents c0.dlt_id = 0)
    (h1 : childCount d.commits__parents c1.dlt_id = 1)
    (h2 : childCount d.commits__parents c2.dlt_id = 2) :
    ∃ o0 o1 o2 : CommitOut,
      commitsRel d = [o0, o1, o2] ∧
      o0.parent_count = 0 ∧ o1.parent_count = 1 ∧ o2.parent_count = 2 ∧
      o0.is_merge_commit = false ∧ o1.is_merge_commit = false ∧
      o2.is_merge_commit = true := by
  refine ⟨mkCommitOut c0 (some 0), mkCommitOut c1 (some 1),
    mkCommitOut c2 (some 2), ?_, rfl, rfl, rfl, rfl, rfl, rfl⟩
  rw [commitsRel_eq_map, hc]
  simp [h0, h1, h2]

/-- Witness for C1: the concrete dataset `gEx` has commits "a", "b", "c"
with 0, 1 and 2 child rows. -/
theorem commits_parent_count_classification_witness :
    (gEx.commits = [exCommit "a" (some "u") 0, exCommit "b" (some "u") 0,
        exCommit "c" none 86400] ∧
      childCount gEx.commits__parents (exCommit "a" (some "u") 0).dlt_id = 0 ∧
      childCount gEx.commits__parents (exCommit "b" (some "u") 0).dlt_id = 1 ∧
      childCount gEx.commits__parents (exCommit "c" none 86400).dlt_id = 2) ∧
    (∃ o0 o1 o2 : CommitOut,
      commitsRel gEx = [o0, o1, o2] ∧
      o0.parent_count = 0 ∧ o1.parent_count = 1 ∧ o2.parent_count = 2 ∧
      o0.is_merge_commit = false ∧ o1.is_merge_commit = false ∧
      o2.is_merge_commit = true) :=
  ⟨⟨rfl, by decide, by decide, by decide⟩,
    commits_parent_count_classification gEx _ _ _ rfl
      (by decide) (by decide) (by decide)⟩

/-- C2: for every table written under the "replace" write policy (as
declared on `normalized_repository`), running the same transformation twice
in succession leaves the destination table equal to the table produced by a
single fresh run. -/
theorem replace_rerun_equals_fresh_run (α : Type) (key : α → Nat)
    (rows dest0 dest1 : List α) :
    applyWrite normalized_repository_write_disposition key
        (applyWrite normalized_repository_write_disposition key dest0 rows) rows
      = applyWrite normalized_repository_write_disposition key dest1 rows := rfl

/-- C3: an append-policy transformation whose computed output schema is
incompatible with the existing destination schema fails before any row is
written: the run reports a schema error and the destination table is
exactly unchanged. -/
theorem append_incompatible_schema_rejected (dest : DestTable)
    (ns : TableSchema) (nr : List (List String))
    (h : schemaCompatible dest.schema ns = false) :
    appendLoad dest ns nr = Except.error LoadError.schemaIncompatible ∧
    appendLoadFinal dest ns nr = dest := by
  have h1 : appendLoad dest ns nr = Except.error LoadError.schemaIncompatible := by
    simp [appendLoad, h]
  refine ⟨h1, ?_⟩
  unfold appendLoadFinal
  rw [h1]

/-- Witness for C3: narrowing column "a" from text to bigint is rejected
and leaves the destination untouched. -/
theorem append_incompatible_schema_rejected_witness :
    (schemaCompatible
        ({ schema := [("a", ColType.text)], rows := [["x"]] } : DestTable).schema
        [("a", ColType.bigint)] = false) ∧
    (appendLoad { schema := [("a", ColType.text)], rows := [["x"]] }
          [("a", ColType.bigint)] [["y"]]
        = Except.error LoadError.schemaIncompatible ∧
      appendLoadFinal { schema := [("a", ColType.text)], rows := [["x"]] }
          [("a", ColType.bigint)] [["y"]]
        = { schema := [("a", ColType.text)], rows := [["x"]] }) :=
  ⟨by decide, append_incompatible_schema_rejected _ _ _ (by decide)⟩

/-- C4: the metric results table is append-only: after `N` completed loads,
it holds exactly one row per load for each declared metric, keyed by load
ids 0..N-1, and a further load only appends new rows, never mutating or
deleting previously written ones. -/
theorem metrics_results_append_only (declared : List String)
    (compute : String → Nat → Int) (n : Nat) (m : String)
    (hnd : declared.Nodup) (hm : m ∈ declared) :
    ((runLoads declared compute n).filter (fun r => r.metric_name = m))
        = (List.range n).map (fun i => ⟨i, m, compute m i⟩) ∧
    runLoads declared compute (n + 1)
        = runLoads declared compute n
            ++ declared.map (fun mm => ⟨n, mm, compute mm n⟩) := by
  refine ⟨?_, rfl⟩
  induction n with
  | zero => rfl
  | succ k ih =>
      have hstep : runLoads declared compute (k + 1)
          = runLoads declared compute k
              ++ declared.map (fun mm => ⟨k, mm, compute mm k⟩) := rfl
      rw [hstep, List.filter_append, ih,
        filter_metric_map compute k m declared hnd hm,
        List.range_succ, List.map_append]
      rfl

/-- Witness for C4 with one declared metric and two loads. -/
theorem metrics_results_append_only_witness :
    (["row_total"].Nodup ∧ "row_total" ∈ ["row_total"]) ∧
    (((runLoads ["row_total"] (fun _ _ => (0 : Int)) 2).filter
          (fun r => r.metric_name = "row_total"))
        = (List.range 2).map (fun i => ⟨i, "row_total", 0⟩) ∧
      runLoads ["row_total"] (fun _ _ => (0 : Int)) (2 + 1)
        = runLoads ["row_total"] (fun _ _ => (0 : Int)) 2
            ++ ["row_total"].map (fun mm => ⟨2, mm, 0⟩)) :=
  ⟨⟨by decide, by decide⟩,
    metrics_results_append_only ["row_total"] (fun _ _ => 0) 2 "row_total"
      (by decide) (by decide)⟩

/-- C5: parent-child referential integrity: every row of the generated
child table references, via its `_dlt_parent_id` column, the generated id
of exactly one row of the parent table. -/
theorem child_rows_reference_unique_parent (input : List NestedCommitRecord)
    (ch : IngChildRow) (h : ch ∈ (ingestFlatten input).2) :
    (((ingestFlatten input).1).filter
        (fun p => p.dlt_id = ch.dlt_parent_id)).length = 1 :=
  flattenFrom_ref_integrity input 0 ch h

/-- Witness for C5: one record with one nested parent entry. -/
theorem child_rows_reference_unique_parent_witness :
    ((⟨0, "x"⟩ : IngChildRow) ∈ (ingestFlatten [⟨"c0", ["x"]⟩]).2) ∧
    (((ingestFlatten [⟨"c0", ["x"]⟩]).1).filter
        (fun p => p.dlt_id = (⟨0, "x"⟩ : IngChildRow).dlt_parent_id)).length = 1 :=
  ⟨by decide, child_rows_reference_unique_parent _ _ (by decide)⟩

/-- C6: in every composed two-stage run, any observation of the
transformation stage reading the dataset is strictly preceded by the
ingestion stage's commit; a transformation never observes an uncommitted or
in-progress ingestion state. -/
theorem transform_reads_after_ingest_commit (r : Option GithubDataset)
    (j : Nat)
    (h : ((composedRun r).1)[j]? = some RunEvent.transformRead) :
    ∃ i, i < j ∧ ((composedRun r).1)[i]? = some RunEvent.ingestCommit := by
  cases r with
  | none =>
      exfalso
      match j with
      | 0 => simp [composedRun] at h
      | 1 => simp [composedRun] at h
      | n + 2 => simp [composedRun] at h
  | some ds =>
      match j with
      | 0 => exact absurd h (by simp [composedRun])
      | 1 => exact absurd h (by simp [composedRun])
      | 2 => exact ⟨1, by omega, by simp [composedRun]⟩
      | 3 => exact absurd h (by simp [composedRun])
      | n + 4 => exact absurd h (by simp [composedRun])

/-- Witness for C6: in a successful run the read at position 2 is preceded
by the commit. -/
theorem transform_reads_after_ingest_commit_witness :
    (((composedRun (some gEx)).1)[2]? = some RunEvent.transformRead) ∧
    ∃ i, i < 2 ∧ ((composedRun (some gEx)).1)[i]? = some RunEvent.ingestCommit :=
  ⟨rfl, transform_reads_after_ingest_commit (some gEx) 2 rfl⟩

/-- C7: every transformation function takes a dataset handle as its
argument and yields a finite sequence of relations with exactly one yielded
relation per output table it produces. -/
theorem transformations_yield_one_relation_each (d : GithubDataset)
    (j : JaffleDataset) :
    (users d).length = 1 ∧ (commits d).length = 1 ∧
    (daily_activity d).length = 1 ∧ (customer_orders j).length = 1 ∧
    (customer_payments j).length = 1 :=
  ⟨rfl, rfl, rfl, rfl, rfl⟩

/-- C8: every transformation is a pure, stateless function of its input
dataset: two invocations on datasets whose read tables have equal contents
yield equal output relations, whatever the other tables hold. -/
theorem transformations_stateless (g1 g2 : GithubDataset)
    (j1 j2 : JaffleDataset)
    (hcm : g1.commits = g2.commits)
    (hpar : g1.commits__parents = g2.commits__parents)
    (hcon : g1.contributors = g2.contributors)
    (hord : j1.orders = j2.orders)
    (hpay : j1.payments = j2.payments) :
    users g1 = users g2 ∧ commits g1 = commits g2 ∧
    daily_activity g1 = daily_activity g2 ∧
    customer_orders j1 = customer_orders j2 ∧
    customer_payments j1 = customer_payments j2 := by
  refine ⟨?_, ?_, ?_, ?_, ?_⟩ <;>
    simp only [users, usersRel, commits, commitsRel, daily_activity, dailyRel,
      customer_orders, customerOrdersRel, customer_payments,
      customerPaymentsRel, hcm, hpar, hcon, hord, hpay]

/-- Witness for C8: `jEx1` and `jEx2` differ in the unread `customers` and
`products` tables but agree on `orders` and `payments`. -/
theorem transformations_stateless_witness :
    (gEx.commits = gEx.commits ∧ gEx.commits__parents = gEx.commits__parents ∧
      gEx.contributors = gEx.contributors ∧ jEx1.orders = jEx2.orders ∧
      jEx1.payments = jEx2.payments) ∧
    (users gEx = users gEx ∧ commits gEx = commits gEx ∧
      daily_activity gEx = daily_activity gEx ∧
      customer_orders jEx1 = customer_orders jEx2 ∧
      customer_payments jEx1 = customer_payments jEx2) :=
  ⟨⟨rfl, rfl, rfl, rfl, rfl⟩,
    transformations_stateless gEx gEx jEx1 jEx2 rfl rfl rfl rfl rfl⟩

/-- C9: in every `daily_activity` output row,
`merge_commits + regular_commits = total_commits`: the predicates
`parent_count > 1` and `parent_count ≤ 1` partition the group, because the
coalesced `parent_count` is never null. -/
theorem daily_activity_counts_partition (d : GithubDataset) (row : DailyOut)
    (hrow : row ∈ dailyRel d) :
    row.merge_commits + row.regular_commits = row.total_commits := by
  simp only [dailyRel, List.mem_map] at hrow
  obtain ⟨dt, _, heq⟩ := hrow
  subst heq
  exact daily_filter_partition _

/-- Witness for C9 at the concrete dataset `gEx`. -/
theorem daily_activity_counts_partition_witness :
    ((⟨0, 2, 0, 2, 1⟩ : DailyOut) ∈ dailyRel gEx) ∧
    (⟨0, 2, 0, 2, 1⟩ : DailyOut).merge_commits
        + (⟨0, 2, 0, 2, 1⟩ : DailyOut).regular_commits
      = (⟨0, 2, 0, 2, 1⟩ : DailyOut).total_commits :=
  ⟨by decide, daily_activity_counts_partition gEx _ (by decide)⟩

/-- C10: the `commits` transformation yields exactly one output row per raw
commit row, in order: the left join against the grouped parent counts
neither drops nor duplicates commit rows. -/
theorem commits_one_row_per_raw_commit (d : GithubDataset) :
    (commitsRel d).length = d.commits.length ∧
    (commitsRel d).map (fun o => o.sha) = d.commits.map (fun c => c.sha) := by
  constructor
  · rw [commitsRel_eq_map, List.length_map]
  · rw [commitsRel_eq_map, List.map_map]
    rfl
